import Mathlib

/-!
Verification development for the per-instrument inactivity-alert engine
(`useUserInactivityAlerts` hook and `AlertService`).

The engine is embedded shallowly:
* prices are rationals (`Rat`), timestamps are milliseconds (`Int`);
* the mutable `SymbolState` map entry becomes an explicit `SymbolState`
  value threaded through a per-tick step function `processTick`, which is
  a direct transcription of the body of the `latestTicks.forEach` loop;
* the `setTimeout` closure becomes a `PendingTimer` value carrying the
  tick and config it captured plus its deadline; the callback body becomes
  `fireTimer`.  A fired (spent) or `clearTimeout`-ed timer is modelled as
  `timer = none` (the source keeps a stale `timerId` handle around after a
  fire, but no pending callback exists for it);
* asynchronous persistence (`AlertService.logAlert`) is modelled by a
  boolean `persistOk` input giving the outcome the `await` observed;
* the oracle `shouldAlertsBeActive` is modelled by a boolean input holding
  the value the oracle would return at the given instant, plus an
  `oracleCalls` counter in the result recording how often the source
  consults it during the step.
-/

/-- One price update, as in `TickData` (`instrument_token`, `last_price`,
`receivedAt`). -/
structure TickData where
  instrument_token : Nat
  last_price : Rat
  receivedAt : Int
deriving Repr, DecidableEq

/-- Per-(user, instrument) alert configuration (`UserAlertConfig`),
restricted to the fields the engine reads. -/
structure UserAlertConfig where
  exchange : String
  enabled : Bool
  deviation : Rat
  duration : Nat
  respect_market_hours : Bool
  notification_sound : Bool
  notification_browser : Bool
deriving Repr, DecidableEq

/-- One `priceHistory` entry: `{ price, timestamp }`. -/
structure PricePoint where
  price : Rat
  timestamp : Int
deriving Repr, DecidableEq

/-- The scheduled inactivity-timeout callback: the `setTimeout` closure in
`resetInactivityTimer` captures the tick and config of the arming call;
the deadline is arm time plus `config.duration * 1000` ms. -/
structure PendingTimer where
  tick : TickData
  cfg : UserAlertConfig
  deadline : Int
deriving Repr, DecidableEq

/-- Mutable per-instrument state (`SymbolState`).  The oscillator/gain
pair is abstracted to the boolean `soundPlaying` (oscillator non-null). -/
structure SymbolState where
  baselinePrice : Rat
  timer : Option PendingTimer
  priceHistory : List PricePoint
  lastMarketStatusCheck : Int
  wasMarketOpen : Bool
  soundPlaying : Bool
deriving Repr, DecidableEq

/-- An alert log record (`UserAlertLog`) as built in `triggerAlert`,
restricted to the fields the claims are about. -/
structure AlertRecord where
  instrument_token : Nat
  exchange : String
  alert_type : String
  baseline_price : Rat
  current_price : Rat
  price_range_min : Rat
  price_range_max : Rat
  deviation : Rat
  duration : Nat
  market_session : String
  acknowledged : Bool
deriving Repr, DecidableEq

/-- `Math.abs`. -/
def absRat (q : Rat) : Rat := if q < 0 then -q else q

/-- `Math.min(...prices)` over a non-empty list (the source never applies
it to an empty history; `0` is a dummy for the empty case). -/
def listMin : List Rat → Rat
  | [] => 0
  | p :: ps => ps.foldl min p

/-- `Math.max(...prices)` over a non-empty list. -/
def listMax : List Rat → Rat
  | [] => 0
  | p :: ps => ps.foldl max p

/-- `xs.slice(-n)`: the last `n` elements. -/
def takeLast (l : List α) (n : Nat) : List α := l.drop (l.length - n)

/-- `resetInactivityTimer(tick, config, state)`: clear any pending
timeout, reset `priceHistory` to just the current tick, schedule a fresh
timeout for `config.duration * 1000` ms from `now`. -/
def resetInactivityTimer (tick : TickData) (cfg : UserAlertConfig) (now : Int)
    (st : SymbolState) : SymbolState :=
  { st with
    timer := some { tick := tick, cfg := cfg, deadline := now + (cfg.duration : Int) * 1000 }
    priceHistory := [{ price := tick.last_price, timestamp := now }] }

/-- Result of processing one deduplicated tick for one instrument:
the new `SymbolState` (if any), whether the token is in the
`inactiveSymbols` set afterwards, and how many times the step consulted
the market-session oracle (`shouldAlertsBeActive`). -/
structure TickResult where
  state : Option SymbolState
  inactive : Bool
  oracleCalls : Nat
deriving Repr, DecidableEq

/-- Lines 754–780 of the hook body: the code reached after the throttled
market-status block falls through — the suspended-market early return,
the history append + prune, and the deviation check. -/
def afterMarketCheck (cfg : UserAlertConfig) (shouldAlert : Bool) (now : Int)
    (tick : TickData) (st : SymbolState) (inactive : Bool) (oracleCalls : Nat) :
    TickResult :=
  if !shouldAlert && cfg.respect_market_hours then
    { state := some { st with soundPlaying := false, timer := none }
      inactive := inactive, oracleCalls := oracleCalls }
  else
    let hist := st.priceHistory ++ [{ price := tick.last_price, timestamp := now }]
    let fiveMinutesAgo := now - 5 * 60 * 1000
    let hist := takeLast (hist.filter (fun h => fiveMinutesAgo < h.timestamp)) 100
    let st := { st with priceHistory := hist }
    if absRat (tick.last_price - st.baselinePrice) > cfg.deviation then
      let st := { st with baselinePrice := tick.last_price }
      let st := resetInactivityTimer tick cfg now st
      { state := some { st with soundPlaying := false }
        inactive := false, oracleCalls := oracleCalls }
    else
      { state := some st, inactive := inactive, oracleCalls := oracleCalls }

/-- The body of `latestTicks.forEach` for a single instrument token:
given the configuration looked up for the token, the value the session
oracle would return now, the wall-clock instant `now` (`Date.now()`), the
tick, the current `SymbolState` (if any), and whether the token is
currently in `inactiveSymbols`. -/
def processTick (cfg? : Option UserAlertConfig) (oracleActive : Bool) (now : Int)
    (tick : TickData) (st? : Option SymbolState) (inactive : Bool) : TickResult :=
  match cfg? with
  | none => { state := none, inactive := false, oracleCalls := 0 }
  | some cfg =>
    if !cfg.enabled then
      { state := none, inactive := false, oracleCalls := 0 }
    else
      let oracleCalls := if cfg.respect_market_hours then 1 else 0
      let shouldAlert := if cfg.respect_market_hours then oracleActive else true
      match st? with
      | none =>
        let st0 : SymbolState :=
          { baselinePrice := tick.last_price
            timer := none
            priceHistory := [{ price := tick.last_price, timestamp := now }]
            lastMarketStatusCheck := now
            wasMarketOpen := shouldAlert
            soundPlaying := false }
        let st1 := if shouldAlert then resetInactivityTimer tick cfg now st0 else st0
        { state := some st1, inactive := inactive, oracleCalls := oracleCalls }
      | some st =>
        if now - st.lastMarketStatusCheck > 60000 then
          let st := { st with lastMarketStatusCheck := now }
          if st.wasMarketOpen != shouldAlert then
            let st := { st with wasMarketOpen := shouldAlert }
            if shouldAlert then
              let st := { st with baselinePrice := tick.last_price }
              let st := resetInactivityTimer tick cfg now st
              { state := some { st with soundPlaying := false }
                inactive := false, oracleCalls := oracleCalls }
            else
              { state := some { st with soundPlaying := false, timer := none }
                inactive := inactive, oracleCalls := oracleCalls }
          else
            afterMarketCheck cfg shouldAlert now tick st inactive oracleCalls
        else
          afterMarketCheck cfg shouldAlert now tick st inactive oracleCalls

/-- The `UserAlertLog` snapshot built at the top of `triggerAlert` before
any side effect: baseline from the state, current price from the captured
tick, price range over the retained history. -/
def buildAlertRecord (tick : TickData) (cfg : UserAlertConfig) (st : SymbolState)
    (marketSession : String) : AlertRecord :=
  let prices := st.priceHistory.map (·.price)
  { instrument_token := tick.instrument_token
    exchange := cfg.exchange
    alert_type := "inactivity"
    baseline_price := st.baselinePrice
    current_price := tick.last_price
    price_range_min := listMin prices
    price_range_max := listMax prices
    deviation := cfg.deviation
    duration := cfg.duration
    market_session := marketSession
    acknowledged := false }

/-- Result of a timeout fire: the state afterwards, the inactive marker,
the recent-alerts cache, the record that was constructed (if any), and
which user-visible side effects ran. -/
structure FireResult where
  state : Option SymbolState
  inactive : Bool
  alerts : List AlertRecord
  record : Option AlertRecord
  soundStarted : Bool
  browserNotified : Bool
  toastShown : Bool
deriving Repr, DecidableEq

/-- `triggerAlert(tick, config, state)`: build the record, `await`
persistence (`AlertService.logAlert`, outcome `persistOk`), and only on
success prepend to the capped recent-alerts cache, add the token to
`inactiveSymbols`, play the sound (when `notification_sound` and an
`AudioContext` exists), show the browser notification (when
`notification_browser` and permission is granted), and show the toast. -/
def triggerAlert (tick : TickData) (cfg : UserAlertConfig) (st : SymbolState)
    (marketSession : String) (persistOk audioCtx notifGranted : Bool)
    (alerts : List AlertRecord) (inactive : Bool) : FireResult :=
  let newAlert := buildAlertRecord tick cfg st marketSession
  if persistOk then
    let soundNow := cfg.notification_sound && audioCtx
    { state := some { st with
        timer := none
        soundPlaying := if soundNow then true else st.soundPlaying }
      inactive := true
      alerts := (newAlert :: alerts).take 100
      record := some newAlert
      soundStarted := soundNow
      browserNotified := cfg.notification_browser && notifGranted
      toastShown := true }
  else
    { state := some { st with timer := none }
      inactive := inactive
      alerts := alerts
      record := some newAlert
      soundStarted := false
      browserNotified := false
      toastShown := false }

/-- The `setTimeout` callback scheduled by `resetInactivityTimer`: at the
deadline, re-query the oracle when `respect_market_hours`, then either
`triggerAlert` or stop the sound and `clearSymbolState`. -/
def fireTimer (tm : PendingTimer) (st : SymbolState) (oracleAtFire : Bool)
    (marketSession : String) (persistOk audioCtx notifGranted : Bool)
    (alerts : List AlertRecord) (inactive : Bool) : FireResult :=
  let shouldAlert := if tm.cfg.respect_market_hours then oracleAtFire else true
  if shouldAlert then
    triggerAlert tm.tick tm.cfg st marketSession persistOk audioCtx notifGranted alerts inactive
  else
    { state := none, inactive := false, alerts := alerts, record := none
      soundStarted := false, browserNotified := false, toastShown := false }

/-! ### Tick ingestion (dedup of a batch to the latest tick per token) -/

/-- `Map.get` on the insertion-ordered `latestTicks` map, modelled as an
association list. -/
def lookupTick : List (Nat × TickData) → Nat → Option TickData
  | [], _ => none
  | (k, t) :: rest, tok => if k = tok then some t else lookupTick rest tok

/-- `Map.set`: replace an existing binding in place, or append a new one. -/
def setTick : List (Nat × TickData) → Nat → TickData → List (Nat × TickData)
  | [], tok, t => [(tok, t)]
  | (k, u) :: rest, tok, t =>
    if k = tok then (k, t) :: rest else (k, u) :: setTick rest tok t

/-- One iteration of the dedup loop (`part_002` lines 688–695): replace the
stored tick for the token only when the incoming tick's `receivedAt` is
strictly greater, or when the token is unseen. -/
def dedupStep (m : List (Nat × TickData)) (tick : TickData) : List (Nat × TickData) :=
  match lookupTick m tick.instrument_token with
  | none => setTick m tick.instrument_token tick
  | some prev =>
    if tick.receivedAt > prev.receivedAt then
      setTick m tick.instrument_token tick
    else
      m

/-- The whole dedup pass over a batch of ticks, building `latestTicks`. -/
def dedupTicks (ticks : List TickData) : List (Nat × TickData) :=
  ticks.foldl dedupStep []

/-! ### Acknowledgment / lifecycle API -/

/-- A stored alert-log row, restricted to the columns the acknowledgment
operations touch (also used for the in-memory recent-alerts cache, whose
entries have the same shape). -/
structure StoredAlert where
  id : String
  user_id : String
  instrument_token : Nat
  acknowledged : Bool
  acknowledged_at : Option Int
deriving Repr, DecidableEq

/-- `AlertService.acknowledgeAlert(userId, alertId)`: the store-side
`UPDATE ... SET acknowledged = true, acknowledged_at = now WHERE id =
alertId AND user_id = userId`. -/
def ackStore (db : List StoredAlert) (userId alertId : String) (now : Int) :
    List StoredAlert :=
  db.map fun r =>
    if r.id = alertId ∧ r.user_id = userId then
      { r with acknowledged := true, acknowledged_at := some now }
    else r

/-- The in-memory half of `acknowledgeAlert` (`part_002` lines 805–809):
map over the recent-alerts cache, marking the matching entry. -/
def ackCache (alerts : List StoredAlert) (alertId : String) (now : Int) :
    List StoredAlert :=
  alerts.map fun a =>
    if a.id = alertId then
      { a with acknowledged := true, acknowledged_at := some now }
    else a

/-- `AlertService.acknowledgeAllAlerts(userId)`: `UPDATE ... SET
acknowledged = true, acknowledged_at = now WHERE user_id = userId AND
acknowledged = false`. -/
def ackAllStore (db : List StoredAlert) (userId : String) (now : Int) :
    List StoredAlert :=
  db.map fun r =>
    if r.user_id = userId ∧ r.acknowledged = false then
      { r with acknowledged := true, acknowledged_at := some now }
    else r

/-- The engine-owned global in-memory view: the recent-alerts cache, the
inactive-symbol set, and the per-token `symbolStates` map. -/
structure EngineGlobal where
  alerts : List StoredAlert
  inactiveSymbols : List Nat
  symbolStates : List (Nat × SymbolState)
deriving Repr, DecidableEq

/-- `clearAllAlerts` (`part_002` lines 817–828): `await` the store-wide
acknowledgment (outcome `success`); on success empty the cache, stop the
sound of every monitored instrument, and empty `inactiveSymbols`. -/
def clearAllAlerts (g : EngineGlobal) (success : Bool) : EngineGlobal :=
  if success then
    { alerts := []
      inactiveSymbols := []
      symbolStates := g.symbolStates.map fun p => (p.1, { p.2 with soundPlaying := false }) }
  else g

/-! ### Reachable engine states for one instrument -/

/-- States of one instrument's `SymbolState` slot reachable from the
unmonitored start through tick processing and timeout fires. -/
inductive Reachable : Option SymbolState → Prop
  | init : Reachable none
  | tick {s : Option SymbolState} (cfg? : Option UserAlertConfig) (oracle : Bool)
      (now : Int) (tk : TickData) (inact : Bool) :
      Reachable s → Reachable (processTick cfg? oracle now tk s inact).state
  | fire {st : SymbolState} {tm : PendingTimer} (oracle : Bool) (ms : String)
      (persistOk audioCtx notifGranted : Bool) (alerts : List AlertRecord)
      (inact : Bool) :
      Reachable (some st) → st.timer = some tm →
      Reachable (fireTimer tm st oracle ms persistOk audioCtx notifGranted alerts inact).state

/-! ### Invariants used in the proofs -/

/-- Invariant: whenever a timer is pending, the baseline equals the price
of the tick that the timer's closure captured when it was armed. -/
def TimerInv (s : Option SymbolState) : Prop :=
  ∀ st tm, s = some st → st.timer = some tm → st.baselinePrice = tm.tick.last_price

/-- Invariant carried through the dedup fold: the accumulator maps each
token to a tick of the already-seen prefix with maximal `receivedAt`, and
every seen token has an entry. -/
def DedupInv (seen : List TickData) (m : List (Nat × TickData)) : Prop :=
  (∀ tok t, lookupTick m tok = some t →
      t.instrument_token = tok ∧ t ∈ seen ∧
        ∀ u ∈ seen, u.instrument_token = tok → u.receivedAt ≤ t.receivedAt)
  ∧ (∀ u ∈ seen, ∃ t, lookupTick m u.instrument_token = some t)

/-! ### Concrete scenario inputs -/

/-- Config for the persistence-failure scenario. -/
def c1cfg : UserAlertConfig :=
  { exchange := "NSE", enabled := true, deviation := 1, duration := 30
    respect_market_hours := false, notification_sound := true, notification_browser := true }

def c1tick : TickData := { instrument_token := 11, last_price := 100, receivedAt := 0 }

def c1st : SymbolState :=
  { baselinePrice := 100
    timer := some { tick := c1tick, cfg := c1cfg, deadline := 30000 }
    priceHistory := [{ price := 100, timestamp := 0 }]
    lastMarketStatusCheck := 0, wasMarketOpen := true, soundPlaying := false }

/-- `triggerAlert` on that state when `AlertService.logAlert` fails. -/
def c1fail : FireResult := triggerAlert c1tick c1cfg c1st "regular" false true true [] false

/-- Config and armed state for the post-fire rearm scenario. -/
def c2cfg : UserAlertConfig :=
  { exchange := "NSE", enabled := true, deviation := 1, duration := 30
    respect_market_hours := false, notification_sound := true, notification_browser := true }

def c2tick : TickData := { instrument_token := 22, last_price := 200, receivedAt := 0 }

def c2tm : PendingTimer := { tick := c2tick, cfg := c2cfg, deadline := 30000 }

def c2st : SymbolState :=
  { baselinePrice := 200, timer := some c2tm
    priceHistory := [{ price := 200, timestamp := 0 }]
    lastMarketStatusCheck := 0, wasMarketOpen := true, soundPlaying := false }

/-- The timeout fires at its deadline with alerting still eligible and
persistence succeeding. -/
def c2fire : FireResult := fireTimer c2tm c2st true "regular" true true true [] false

/-- Config of the spec's worked scenario: token 101, deviation 1.0,
duration 30 s, `respectMarketHours = false`. -/
def c3cfg : UserAlertConfig :=
  { exchange := "NSE", enabled := true, deviation := 1, duration := 30
    respect_market_hours := false, notification_sound := true, notification_browser := true }

def c3tick1 : TickData := { instrument_token := 101, last_price := 100, receivedAt := 0 }

def c3tick2 : TickData := { instrument_token := 101, last_price := 100.5, receivedAt := 10000 }

/-- Processing the first tick at t = 0 ms. -/
def c3run1 : TickResult := processTick (some c3cfg) true 0 c3tick1 none false

/-- Expected state after the first tick: armed at t = 0, deadline 30000 ms. -/
def c3st1 : SymbolState :=
  { baselinePrice := 100
    timer := some { tick := c3tick1, cfg := c3cfg, deadline := 30000 }
    priceHistory := [{ price := 100, timestamp := 0 }]
    lastMarketStatusCheck := 0, wasMarketOpen := true, soundPlaying := false }

/-- Processing the second tick at t = 10000 ms. -/
def c3run2 : TickResult := processTick (some c3cfg) true 10000 c3tick2 c3run1.state c3run1.inactive

/-- Expected state after the second tick: history grown, timer untouched
(still the one armed at t = 0 with deadline 30000 ms). -/
def c3st2 : SymbolState :=
  { baselinePrice := 100
    timer := some { tick := c3tick1, cfg := c3cfg, deadline := 30000 }
    priceHistory := [{ price := 100, timestamp := 0 }, { price := 100.5, timestamp := 10000 }]
    lastMarketStatusCheck := 0, wasMarketOpen := true, soundPlaying := false }

/-- The timeout armed at t = 0 fires at its deadline, t = 30000 ms. -/
def c3fire : FireResult :=
  fireTimer { tick := c3tick1, cfg := c3cfg, deadline := 30000 } c3st2 true "regular" true true true [] false

/-- The record the fire emits. -/
def c3record : AlertRecord :=
  { instrument_token := 101, exchange := "NSE", alert_type := "inactivity"
    baseline_price := 100, current_price := 100
    price_range_min := 100, price_range_max := 100.5
    deviation := 1, duration := 30, market_session := "regular", acknowledged := false }

/-- Two ticks for the same token with equal `receivedAt`. -/
def c4t1 : TickData := { instrument_token := 7, last_price := 10, receivedAt := 5 }

def c4t2 : TickData := { instrument_token := 7, last_price := 20, receivedAt := 5 }

/-- A single tick used to instantiate the dedup theorem. -/
def c4w : TickData := { instrument_token := 7, last_price := 10, receivedAt := 5 }

/-- Config and deviating tick for the deviation-rearm witness. -/
def c5cfg : UserAlertConfig :=
  { exchange := "NSE", enabled := true, deviation := 1, duration := 30
    respect_market_hours := false, notification_sound := true, notification_browser := true }

def c5tick : TickData := { instrument_token := 55, last_price := 102, receivedAt := 10000 }

def c5st : SymbolState :=
  { baselinePrice := 100
    timer := some { tick := { instrument_token := 55, last_price := 100, receivedAt := 0 }
                    cfg := c5cfg, deadline := 30000 }
    priceHistory := [{ price := 100, timestamp := 0 }]
    lastMarketStatusCheck := 0, wasMarketOpen := true, soundPlaying := false }

/-- Config with `respect_market_hours = true` for the suspended-history
scenario. -/
def c6cfg : UserAlertConfig :=
  { exchange := "NSE", enabled := true, deviation := 1, duration := 30
    respect_market_hours := true, notification_sound := true, notification_browser := true }

def c6t1 : TickData := { instrument_token := 101, last_price := 100, receivedAt := 0 }

def c6t2 : TickData := { instrument_token := 101, last_price := 100, receivedAt := 400000 }

/-- First tick at t = 0 while the session oracle reports inactive. -/
def c6run1 : TickResult := processTick (some c6cfg) false 0 c6t1 none false

/-- Second tick 400 s later, session still inactive. -/
def c6run2 : TickResult := processTick (some c6cfg) false 400000 c6t2 c6run1.state c6run1.inactive

/-- Expected suspended state after the second tick: the history still
holds only the entry from t = 0. -/
def c6st2 : SymbolState :=
  { baselinePrice := 100, timer := none
    priceHistory := [{ price := 100, timestamp := 0 }]
    lastMarketStatusCheck := 400000, wasMarketOpen := false, soundPlaying := false }

/-- Config with `respect_market_hours = true` for the oracle-throttle
scenario. -/
def c7cfg : UserAlertConfig :=
  { exchange := "NSE", enabled := true, deviation := 1, duration := 30
    respect_market_hours := true, notification_sound := true, notification_browser := true }

def c7t1 : TickData := { instrument_token := 101, last_price := 100, receivedAt := 0 }

def c7t2 : TickData := { instrument_token := 101, last_price := 100, receivedAt := 1000 }

def c7run1 : TickResult := processTick (some c7cfg) true 0 c7t1 none false

def c7run2 : TickResult := processTick (some c7cfg) true 1000 c7t2 c7run1.state c7run1.inactive

/-- An already-acknowledged stored record (acknowledged at t = 5). -/
def c9rec : StoredAlert :=
  { id := "a1", user_id := "u1", instrument_token := 101
    acknowledged := true, acknowledged_at := some 5 }

/-- Config, tick, timer and armed state for the fire-record witness. -/
def c10cfg : UserAlertConfig :=
  { exchange := "NSE", enabled := true, deviation := 1, duration := 30
    respect_market_hours := false, notification_sound := true, notification_browser := true }

def c10tick : TickData := { instrument_token := 5, last_price := 50, receivedAt := 0 }

def c10tm : PendingTimer := { tick := c10tick, cfg := c10cfg, deadline := 30000 }

def c10st : SymbolState :=
  { baselinePrice := 50, timer := some c10tm
    priceHistory := [{ price := 50, timestamp := 0 }]
    lastMarketStatusCheck := 0, wasMarketOpen := true, soundPlaying := false }

/-- The state created by the first tick of the eligibility witness
scenario (token 101, price 100 at t = 0, session active). -/
def c6wstate : SymbolState :=
  { baselinePrice := 100
    timer := some { tick := c6t1, cfg := c6cfg, deadline := 30000 }
    priceHistory := [{ price := 100, timestamp := 0 }]
    lastMarketStatusCheck := 0, wasMarketOpen := true, soundPlaying := false }

/-! ### Helper lemmas -/

theorem takeLast_length_le (l : List α) (n : Nat) : (takeLast l n).length ≤ n := by
  simp [takeLast]
  omega

theorem takeLast_bounds (l : List PricePoint) (now : Int)
    (h : ∀ e ∈ l, now - e.timestamp < 300000) :
    (takeLast l 100).length ≤ 100 ∧ ∀ e ∈ takeLast l 100, now - e.timestamp < 300000 :=
  ⟨takeLast_length_le _ _, fun e he => h e (List.mem_of_mem_drop he)⟩

theorem afterMarketCheck_history_bounds (cfg : UserAlertConfig) (now : Int)
    (tick : TickData) (st : SymbolState) (inact : Bool) (oc : Nat) (st' : SymbolState)
    (hres : (afterMarketCheck cfg true now tick st inact oc).state = some st') :
    st'.priceHistory.length ≤ 100 ∧ ∀ e ∈ st'.priceHistory, now - e.timestamp < 300000 := by
  unfold afterMarketCheck at hres
  by_cases hd : absRat (tick.last_price - st.baselinePrice) > cfg.deviation
  · simp [hd, resetInactivityTimer] at hres
    subst hres
    refine ⟨by simp, ?_⟩
    intro e he
    simp at he
    subst he
    simp
  · simp [hd] at hres
    subst hres
    refine takeLast_bounds _ now ?_
    intro e he
    rcases List.mem_append.mp he with hf | hx
    · have h2 := List.of_mem_filter hf
      simp at h2
      omega
    · simp at hx
      subst hx
      simp

theorem afterMarketCheck_oracleCalls (cfg : UserAlertConfig) (b : Bool) (now : Int)
    (tick : TickData) (st : SymbolState) (inact : Bool) (oc : Nat) :
    (afterMarketCheck cfg b now tick st inact oc).oracleCalls = oc := by
  unfold afterMarketCheck
  dsimp only
  repeat' split
  all_goals rfl

theorem afterMarketCheck_preserves_status (cfg : UserAlertConfig) (b : Bool) (now : Int)
    (tick : TickData) (st : SymbolState) (inact : Bool) (oc : Nat) (st' : SymbolState)
    (hres : (afterMarketCheck cfg b now tick st inact oc).state = some st') :
    st'.lastMarketStatusCheck = st.lastMarketStatusCheck
    ∧ st'.wasMarketOpen = st.wasMarketOpen := by
  unfold afterMarketCheck at hres
  by_cases hs : (!b && cfg.respect_market_hours) = true
  · simp [hs] at hres
    subst hres
    simp
  · simp only [Bool.not_eq_true] at hs
    by_cases hd : absRat (tick.last_price - st.baselinePrice) > cfg.deviation
    · simp [hs, hd, resetInactivityTimer] at hres
      subst hres
      simp
    · simp [hs, hd] at hres
      subst hres
      simp

theorem lookupTick_setTick_self (m : List (Nat × TickData)) (tok : Nat) (t : TickData) :
    lookupTick (setTick m tok t) tok = some t := by
  induction m with
  | nil => simp [setTick, lookupTick]
  | cons p rest ih =>
    obtain ⟨k, u⟩ := p
    by_cases h : k = tok <;> simp [setTick, lookupTick, h, ih]

theorem lookupTick_setTick_other (m : List (Nat × TickData)) (tok tok' : Nat)
    (t : TickData) (h : tok' ≠ tok) :
    lookupTick (setTick m tok t) tok' = lookupTick m tok' := by
  induction m with
  | nil => simp [setTick, lookupTick, Ne.symm h]
  | cons p rest ih =>
    obtain ⟨k, u⟩ := p
    by_cases hk : k = tok
    · subst hk
      simp [setTick, lookupTick, Ne.symm h]
    · simp [setTick, lookupTick, hk, ih]

theorem dedupStep_inv {seen : List TickData} {m : List (Nat × TickData)} {v : TickData}
    (h : DedupInv seen m) : DedupInv (seen ++ [v]) (dedupStep m v) := by
  obtain ⟨ha, hb⟩ := h
  unfold dedupStep
  cases hl : lookupTick m v.instrument_token with
  | none =>
    constructor
    · intro tok t ht
      by_cases htok : tok = v.instrument_token
      · subst htok
        rw [lookupTick_setTick_self] at ht
        cases ht
        refine ⟨rfl, by simp, ?_⟩
        intro u hu hutok
        rcases List.mem_append.mp hu with hus | huv
        · exfalso
          obtain ⟨t', ht'⟩ := hb u hus
          rw [hutok, hl] at ht'
          cases ht'
        · simp at huv
          subst huv
          exact le_refl _
      · rw [lookupTick_setTick_other _ _ _ _ htok] at ht
        obtain ⟨h1, h2, h3⟩ := ha tok t ht
        refine ⟨h1, List.mem_append_left _ h2, ?_⟩
        intro u hu hutok
        rcases List.mem_append.mp hu with hus | huv
        · exact h3 u hus hutok
        · simp at huv
          subst huv
          exact absurd hutok (fun hh => htok hh.symm)
    · intro u hu
      rcases List.mem_append.mp hu with hus | huv
      · by_cases hcase : u.instrument_token = v.instrument_token
        · rw [hcase, lookupTick_setTick_self]
          exact ⟨_, rfl⟩
        · rw [lookupTick_setTick_other _ _ _ _ hcase]
          exact hb u hus
      · simp at huv
        subst huv
        rw [lookupTick_setTick_self]
        exact ⟨_, rfl⟩
  | some prev =>
    dsimp only
    by_cases hgt : v.receivedAt > prev.receivedAt
    · rw [if_pos hgt]
      obtain ⟨hp1, hp2, hp3⟩ := ha v.instrument_token prev hl
      constructor
      · intro tok t ht
        by_cases htok : tok = v.instrument_token
        · subst htok
          rw [lookupTick_setTick_self] at ht
          cases ht
          refine ⟨rfl, by simp, ?_⟩
          intro u hu hutok
          rcases List.mem_append.mp hu with hus | huv
          · exact le_of_lt (lt_of_le_of_lt (hp3 u hus hutok) hgt)
          · simp at huv
            subst huv
            exact le_refl _
        · rw [lookupTick_setTick_other _ _ _ _ htok] at ht
          obtain ⟨h1, h2, h3⟩ := ha tok t ht
          refine ⟨h1, List.mem_append_left _ h2, ?_⟩
          intro u hu hutok
          rcases List.mem_append.mp hu with hus | huv
          · exact h3 u hus hutok
          · simp at huv
            subst huv
            exact absurd hutok (fun hh => htok hh.symm)
      · intro u hu
        rcases List.mem_append.mp hu with hus | huv
        · by_cases hcase : u.instrument_token = v.instrument_token
          · rw [hcase, lookupTick_setTick_self]
            exact ⟨_, rfl⟩
          · rw [lookupTick_setTick_other _ _ _ _ hcase]
            exact hb u hus
        · simp at huv
          subst huv
          rw [lookupTick_setTick_self]
          exact ⟨_, rfl⟩
    · rw [if_neg hgt]
      constructor
      · intro tok t ht
        obtain ⟨h1, h2, h3⟩ := ha tok t ht
        refine ⟨h1, List.mem_append_left _ h2, ?_⟩
        intro u hu hutok
        rcases List.mem_append.mp hu with hus | huv
        · exact h3 u hus hutok
        · simp at huv
          subst huv
          have hteq : t = prev := by
            rw [hutok] at hl
            rw [ht] at hl
            cases hl
            rfl
          subst hteq
          exact le_of_not_lt hgt
      · intro u hu
        rcases List.mem_append.mp hu with hus | huv
        · exact hb u hus
        · simp at huv
          subst huv
          exact ⟨prev, hl⟩

theorem dedup_fold_inv (ticks : List TickData) :
    ∀ (seen : List TickData) (m : List (Nat × TickData)),
      DedupInv seen m → DedupInv (seen ++ ticks) (ticks.foldl dedupStep m) := by
  induction ticks with
  | nil =>
    intro seen m h
    simpa using h
  | cons v rest ih =>
    intro seen m h
    have h' := dedupStep_inv (v := v) h
    have h2 := ih (seen ++ [v]) (dedupStep m v) h'
    simpa using h2

theorem afterMarketCheck_timerInv (cfg : UserAlertConfig) (b : Bool) (now : Int)
    (tick : TickData) (st : SymbolState) (inact : Bool) (oc : Nat)
    (h : ∀ tm, st.timer = some tm → st.baselinePrice = tm.tick.last_price) :
    TimerInv (afterMarketCheck cfg b now tick st inact oc).state := by
  intro st' tm h1 h2
  unfold afterMarketCheck at h1
  by_cases hs : (!b && cfg.respect_market_hours) = true
  · simp [hs] at h1
    subst h1
    simp at h2
  · simp only [Bool.not_eq_true] at hs
    by_cases hd : absRat (tick.last_price - st.baselinePrice) > cfg.deviation
    · simp [hs, hd, resetInactivityTimer] at h1
      subst h1
      cases h2
      rfl
    · simp [hs, hd] at h1
      subst h1
      exact h tm h2

theorem processTick_timerInv (cfg? : Option UserAlertConfig) (oracle : Bool) (now : Int)
    (tick : TickData) (s : Option SymbolState) (inact : Bool)
    (h : TimerInv s) : TimerInv (processTick cfg? oracle now tick s inact).state := by
  cases cfg? with
  | none =>
    intro st' tm h1 h2
    simp [processTick] at h1
  | some cfg =>
    by_cases hen : cfg.enabled = true
    case neg =>
      intro st' tm h1 h2
      simp [processTick, hen] at h1
    case pos =>
      cases s with
      | none =>
        intro st' tm h1 h2
        unfold processTick at h1
        by_cases hsa : (if cfg.respect_market_hours then oracle else true) = true
        · simp [hen, hsa, resetInactivityTimer] at h1
          subst h1
          cases h2
          rfl
        · simp only [Bool.not_eq_true] at hsa
          simp [hen, hsa] at h1
          subst h1
          simp at h2
      | some st =>
        intro st' tm h1 h2
        have hst : ∀ tm', st.timer = some tm' → st.baselinePrice = tm'.tick.last_price :=
          fun tm' htm => h st tm' rfl htm
        unfold processTick at h1
        simp only [hen, Bool.not_true, Bool.false_eq_true, if_false] at h1
        by_cases hth : now - st.lastMarketStatusCheck > 60000
        · simp only [if_pos hth] at h1
          by_cases hb : (({ st with lastMarketStatusCheck := now }).wasMarketOpen
              != (if cfg.respect_market_hours then oracle else true)) = true
          · simp only [if_pos hb] at h1
            by_cases hsa : (if cfg.respect_market_hours then oracle else true) = true
            · simp [hsa, resetInactivityTimer] at h1
              subst h1
              cases h2
              rfl
            · simp only [Bool.not_eq_true] at hsa
              simp [hsa] at h1
              subst h1
              simp at h2
          · simp only [if_neg hb] at h1
            exact afterMarketCheck_timerInv cfg _ now tick
              { st with lastMarketStatusCheck := now } inact _
              (fun tm' htm => hst tm' htm) st' tm h1 h2
        · simp only [if_neg hth] at h1
          exact afterMarketCheck_timerInv _ _ _ _ _ _ _ hst st' tm h1 h2

theorem fireTimer_timerInv (tm : PendingTimer) (st : SymbolState) (oracle : Bool)
    (ms : String) (persistOk audioCtx notifGranted : Bool) (alerts : List AlertRecord)
    (inact : Bool) :
    TimerInv (fireTimer tm st oracle ms persistOk audioCtx notifGranted alerts inact).state := by
  intro st' tm' h1 h2
  unfold fireTimer triggerAlert at h1
  by_cases hsa : (if tm.cfg.respect_market_hours then oracle else true) = true
  · simp only [hsa, if_true] at h1
    cases persistOk <;> simp at h1 <;> subst h1 <;> simp at h2
  · simp only [Bool.not_eq_true] at hsa
    simp [hsa] at h1

theorem reachable_timerInv {s : Option SymbolState} (h : Reachable s) : TimerInv s := by
  induction h with
  | init =>
    intro st tm h1 h2
    cases h1
  | tick cfg? oracle now tk inact _ ih =>
    exact processTick_timerInv cfg? oracle now tk _ inact ih
  | fire oracle ms persistOk audioCtx notifGranted alerts inact _ _ =>
    exact fireTimer_timerInv _ _ _ _ _ _ _ _ _

/-! ### Claim theorems -/

/-- C1, counterexample: when `AlertService.logAlert` fails (`persistOk =
false`), `triggerAlert` performs NO in-memory fired bookkeeping — the
recent-alerts cache is left empty and the token is not added to the
inactive-symbol set — and no sound/notification/toast fires, even though
the record itself was constructed.  This refutes the claim that
persistence failure still lets the bookkeeping happen. -/
theorem c1_persist_failure_counterexample :
    c1fail.record = some (buildAlertRecord c1tick c1cfg c1st "regular")
    ∧ c1fail.alerts = [] ∧ c1fail.inactive = false
    ∧ c1fail.soundStarted = false ∧ c1fail.browserNotified = false
    ∧ c1fail.toastShown = false := by
  norm_num [c1fail, triggerAlert]

/-- C1, amended: every in-memory bookkeeping step and every user-visible
side effect of `triggerAlert` is gated on persistence success; on failure
the cache, the inactive marker, sound, notification and toast are all
skipped, though the record is still constructed (construction itself
cannot fail). -/
theorem c1_side_effects_iff_persist_ok (tick : TickData) (cfg : UserAlertConfig)
    (st : SymbolState) (ms : String) (audioCtx notifGranted : Bool)
    (alerts : List AlertRecord) (inact : Bool) :
    (triggerAlert tick cfg st ms false audioCtx notifGranted alerts inact).alerts = alerts
    ∧ (triggerAlert tick cfg st ms false audioCtx notifGranted alerts inact).inactive = inact
    ∧ (triggerAlert tick cfg st ms false audioCtx notifGranted alerts inact).soundStarted = false
    ∧ (triggerAlert tick cfg st ms false audioCtx notifGranted alerts inact).browserNotified = false
    ∧ (triggerAlert tick cfg st ms false audioCtx notifGranted alerts inact).toastShown = false
    ∧ (triggerAlert tick cfg st ms false audioCtx notifGranted alerts inact).record
        = some (buildAlertRecord tick cfg st ms)
    ∧ (triggerAlert tick cfg st ms true audioCtx notifGranted alerts inact).alerts
        = (buildAlertRecord tick cfg st ms :: alerts).take 100
    ∧ (triggerAlert tick cfg st ms true audioCtx notifGranted alerts inact).inactive = true
    ∧ (triggerAlert tick cfg st ms true audioCtx notifGranted alerts inact).toastShown = true
    ∧ (triggerAlert tick cfg st ms true audioCtx notifGranted alerts inact).record
        = some (buildAlertRecord tick cfg st ms) := by
  simp [triggerAlert]

/-- C2, counterexample: firing the timeout of a concrete armed instrument
(with alerting eligible and persistence succeeding) leaves the state with
NO pending timer — no fresh inactivity timer is scheduled — so a second
period of inactivity does not produce a second alert.  This refutes the
claim that the engine rearms a new timer/baseline cycle after the fire. -/
theorem c2_rearm_counterexample :
    (c2fire.state.map fun s => s.timer) = some none
    ∧ (c2fire.state.map fun s => s.baselinePrice) = some 200
    ∧ c2st.timer = some c2tm := by
  norm_num [c2fire, fireTimer, triggerAlert, c2st, c2tm, c2cfg]

/-- C2, amended: after the alert-fire event is handed to Alert Emission,
the engine does NOT rearm: the post-fire state has no pending timer, and
baseline and history are left unchanged; a new timer cycle starts only
when a later tick deviates beyond the threshold or a session transition
rearms the instrument. -/
theorem c2_no_rearm_after_fire (tm : PendingTimer) (st : SymbolState) (oracle : Bool)
    (ms : String) (persistOk audioCtx notifGranted : Bool) (alerts : List AlertRecord)
    (inact : Bool) (h : (if tm.cfg.respect_market_hours then oracle else true) = true) :
    ∃ st', (fireTimer tm st oracle ms persistOk audioCtx notifGranted alerts inact).state
        = some st'
      ∧ st'.timer = none ∧ st'.baselinePrice = st.baselinePrice
      ∧ st'.priceHistory = st.priceHistory := by
  simp only [fireTimer, h, if_true]
  cases persistOk <;> simp [triggerAlert]

/-- C2, witness for `c2_no_rearm_after_fire` at the concrete armed state
`c2st`. -/
theorem c2_no_rearm_after_fire_witness :
    ∃ st', (fireTimer c2tm c2st true "regular" true true true [] false).state = some st'
      ∧ st'.timer = none ∧ st'.baselinePrice = c2st.baselinePrice
      ∧ st'.priceHistory = c2st.priceHistory :=
  c2_no_rearm_after_fire c2tm c2st true "regular" true true true [] false rfl

/-- C3, counterexample: in the spec scenario (deviation 1.0, duration
30 s, ticks at t=0 price 100 and t=10 s price 100.5) the timer armed at
t=0 is still the pending one after the second tick — its deadline is
t=30 s, not t=40 s — and the record the fire emits carries
`baseline_price = 100`, not 100.5.  This refutes the claimed fire time
and baseline. -/
theorem c3_scenario_counterexample :
    c3run2.state = some c3st2
    ∧ c3st2.timer = some { tick := c3tick1, cfg := c3cfg, deadline := 30000 }
    ∧ (30000 : Int) ≠ 40000
    ∧ c3fire.record = some c3record
    ∧ c3record.baseline_price = 100
    ∧ (100 : Rat) ≠ 100.5 := by
  refine ⟨?_, rfl, by norm_num, ?_, rfl, by norm_num⟩
  · norm_num [c3run2, c3run1, processTick, afterMarketCheck, resetInactivityTimer, absRat,
      takeLast, c3cfg, c3tick1, c3tick2, c3st2]
  · norm_num [c3fire, fireTimer, triggerAlert, buildAlertRecord, listMin, listMax,
      c3cfg, c3tick1, c3st2, c3record]

/-- C3, amended: in that scenario no alert fires at or before t=10 s (the
only pending timer's deadline is 30000 ms > 10000 ms, and tick processing
itself emits nothing); the non-deviating tick at t=10 s leaves the timer
armed at t=0 untouched, so absent further ticks the alert fires at
t=30 s with `baseline_price = 100`, `current_price = 100` and price range
min 100 / max 100.5 over the retained history. -/
theorem c3_scenario_fires_at_30s :
    c3run1.state = some c3st1
    ∧ c3run2.state = some c3st2
    ∧ c3run2.inactive = false
    ∧ (10000 : Int) < 30000
    ∧ c3fire.record = some c3record := by
  refine ⟨?_, ?_, ?_, by norm_num, ?_⟩
  · norm_num [c3run1, processTick, resetInactivityTimer, c3cfg, c3tick1, c3st1]
  · norm_num [c3run2, c3run1, processTick, afterMarketCheck, resetInactivityTimer, absRat,
      takeLast, c3cfg, c3tick1, c3tick2, c3st2]
  · norm_num [c3run2, c3run1, processTick, afterMarketCheck, resetInactivityTimer, absRat,
      takeLast, c3cfg, c3tick1, c3tick2]
  · norm_num [c3fire, fireTimer, triggerAlert, buildAlertRecord, listMin, listMax,
      c3cfg, c3tick1, c3st2, c3record]

/-- C4, counterexample: two ticks for token 7 with equal `receivedAt`;
the dedup pass keeps the one appearing EARLIER in the batch (`c4t1`),
not the later one (`c4t2`), because replacement requires a strictly
greater `receivedAt`.  This refutes the claimed last-seen tie-break. -/
theorem c4_tie_counterexample :
    lookupTick (dedupTicks [c4t1, c4t2]) 7 = some c4t1 ∧ c4t1 ≠ c4t2 := by
  constructor
  · rfl
  · norm_num [c4t1, c4t2]

/-- C4, amended: the dedup pass maps each token to a tick of the batch
with that token whose `receivedAt` is greatest; when two ticks for the
same token carry the same `receivedAt`, the one appearing earlier in the
batch is kept (an incoming tick replaces the stored one only when its
`receivedAt` is strictly greater). -/
theorem c4_dedup_latest_first_on_tie :
    (∀ (ticks : List TickData) (tok : Nat) (t : TickData),
        lookupTick (dedupTicks ticks) tok = some t →
        t.instrument_token = tok ∧ t ∈ ticks ∧
          ∀ u ∈ ticks, u.instrument_token = tok → u.receivedAt ≤ t.receivedAt)
    ∧ (∀ (m : List (Nat × TickData)) (v prev : TickData),
        lookupTick m v.instrument_token = some prev →
        v.receivedAt ≤ prev.receivedAt → dedupStep m v = m) := by
  constructor
  · intro ticks tok t ht
    have hbase : DedupInv [] [] := by
      constructor
      · intro tok' t' ht'
        simp [lookupTick] at ht'
      · intro u hu
        simp at hu
    have hinv := dedup_fold_inv ticks [] [] hbase
    simp only [List.nil_append] at hinv
    exact hinv.1 tok t ht
  · intro m v prev hl hle
    unfold dedupStep
    rw [hl]
    dsimp only
    rw [if_neg (not_lt_of_le hle)]

/-- C4, witness for `c4_dedup_latest_first_on_tie` on the one-tick batch
`[c4w]`. -/
theorem c4_dedup_latest_first_on_tie_witness :
    c4w.instrument_token = 7 ∧ c4w ∈ [c4w]
      ∧ ∀ u ∈ [c4w], u.instrument_token = 7 → u.receivedAt ≤ c4w.receivedAt :=
  c4_dedup_latest_first_on_tie.1 [c4w] 7 c4w rfl

/-- C5: for an armed instrument (enabled config, alerting eligible), a
tick whose price deviates from the baseline by strictly more than the
configured deviation replaces the pending timer with a fresh one armed
for `duration` seconds from now, sets the baseline to the new price,
resets the history to the current tick, removes the token from the
inactive-symbol set, and stops any playing sound; tick processing emits
no alert, so none fires for the cancelled cycle. -/
theorem c5_deviation_cancels_and_rearms (cfg : UserAlertConfig) (oracle : Bool) (now : Int)
    (tick : TickData) (st : SymbolState) (inact : Bool)
    (hen : cfg.enabled = true)
    (hact : (if cfg.respect_market_hours then oracle else true) = true)
    (hdev : absRat (tick.last_price - st.baselinePrice) > cfg.deviation) :
    ∃ st', (processTick (some cfg) oracle now tick (some st) inact).state = some st'
      ∧ st'.baselinePrice = tick.last_price
      ∧ st'.timer = some { tick := tick, cfg := cfg, deadline := now + (cfg.duration : Int) * 1000 }
      ∧ st'.soundPlaying = false
      ∧ st'.priceHistory = [{ price := tick.last_price, timestamp := now }]
      ∧ (processTick (some cfg) oracle now tick (some st) inact).inactive = false := by
  unfold processTick afterMarketCheck
  simp only [hen, hact, Bool.not_true, Bool.false_eq_true, if_false]
  by_cases h1 : now - st.lastMarketStatusCheck > 60000
  · cases hw : st.wasMarketOpen
    · simp [h1, hw, resetInactivityTimer]
    · simp [h1, hw, hdev, resetInactivityTimer]
  · simp [h1, hdev, resetInactivityTimer]

/-- C5, witness for `c5_deviation_cancels_and_rearms` at baseline 100,
tick price 102, deviation 1. -/
theorem c5_deviation_cancels_and_rearms_witness :
    ∃ st', (processTick (some c5cfg) true 10000 c5tick (some c5st) false).state = some st'
      ∧ st'.baselinePrice = c5tick.last_price
      ∧ st'.timer = some { tick := c5tick, cfg := c5cfg
                           deadline := 10000 + (c5cfg.duration : Int) * 1000 }
      ∧ st'.soundPlaying = false
      ∧ st'.priceHistory = [{ price := c5tick.last_price, timestamp := 10000 }]
      ∧ (processTick (some c5cfg) true 10000 c5tick (some c5st) false).inactive = false :=
  c5_deviation_cancels_and_rearms c5cfg true 10000 c5tick c5st false rfl rfl
    (by norm_num [absRat, c5tick, c5st, c5cfg])

/-- C6, counterexample: with `respect_market_hours = true` and the
session oracle reporting inactive, the tick at t=0 creates the state and
a tick 400 s later is processed through the suspended branch, leaving
the history untouched: its only entry (timestamp 0) is then more than
5 minutes older than the latest processed tick's processing instant
(400000 ms).  This refutes the claim for every processed tick. -/
theorem c6_suspended_history_counterexample :
    c6run2.state = some c6st2
    ∧ c6st2.priceHistory = [{ price := 100, timestamp := 0 }]
    ∧ (400000 : Int) - 0 > 300000 := by
  refine ⟨?_, rfl, by norm_num⟩
  norm_num [c6run2, c6run1, processTick, afterMarketCheck, resetInactivityTimer,
    c6cfg, c6t1, c6t2, c6st2]

/-- C6, amended: after processing any tick of an enabled instrument while
alerting is eligible (`respect_market_hours` false, or the session oracle
active), the retained history has at most 100 entries and none more than
5 minutes older than the processing instant `now`; a suspended
instrument's history is left untouched and may retain older entries. -/
theorem c6_history_bounds_when_eligible (cfg : UserAlertConfig) (oracle : Bool) (now : Int)
    (tick : TickData) (st? : Option SymbolState) (inact : Bool)
    (hen : cfg.enabled = true)
    (hact : (if cfg.respect_market_hours then oracle else true) = true)
    (st' : SymbolState)
    (hres : (processTick (some cfg) oracle now tick st? inact).state = some st') :
    st'.priceHistory.length ≤ 100 ∧ ∀ e ∈ st'.priceHistory, now - e.timestamp < 300000 := by
  unfold processTick at hres
  cases st? with
  | none =>
    simp [hen, hact, resetInactivityTimer] at hres
    subst hres
    refine ⟨by simp, ?_⟩
    intro e he
    simp at he
    subst he
    simp
  | some st =>
    simp only [hen, hact, Bool.not_true, Bool.false_eq_true, if_false] at hres
    by_cases h1 : now - st.lastMarketStatusCheck > 60000
    · cases hw : st.wasMarketOpen
      · simp [h1, hw, resetInactivityTimer] at hres
        subst hres
        refine ⟨by simp, ?_⟩
        intro e he
        simp at he
        subst he
        simp
      · simp only [h1, hw, if_true, if_pos] at hres
        simp at hres
        exact afterMarketCheck_history_bounds _ _ _ _ _ _ _ hres
    · simp only [if_neg h1] at hres
      exact afterMarketCheck_history_bounds _ _ _ _ _ _ _ hres

/-- C6, witness for `c6_history_bounds_when_eligible` at the creation of
token 101 with the session active. -/
theorem c6_history_bounds_when_eligible_witness :
    c6wstate.priceHistory.length ≤ 100
    ∧ ∀ e ∈ c6wstate.priceHistory, (0 : Int) - e.timestamp < 300000 :=
  c6_history_bounds_when_eligible c6cfg true 0 c6t1 none false rfl rfl c6wstate rfl

/-- C7, counterexample: two ticks of the same enabled instrument with
`respect_market_hours = true`, processed 1 second apart, each consult the
session oracle once — two consultations within one 60-second window.
This refutes "at most once per 60 seconds". -/
theorem c7_oracle_counterexample :
    c7run1.oracleCalls = 1 ∧ c7run2.oracleCalls = 1 ∧ (1000 : Int) - 0 < 60000 := by
  refine ⟨?_, ?_, by norm_num⟩
  · norm_num [c7run1, processTick, c7cfg, c7t1]
  · norm_num [c7run2, c7run1, processTick, afterMarketCheck, resetInactivityTimer, absRat,
      takeLast, c7cfg, c7t1, c7t2]

/-- C7, amended: the session oracle is consulted exactly once on EVERY
processed tick of an enabled instrument whose config has
`respect_market_hours = true` (and never otherwise); what is throttled to
at most once per 60 seconds is the session-transition handling — when
less than 60 s have elapsed since the last check, `lastMarketStatusCheck`
and `wasMarketOpen` are left unchanged. -/
theorem c7_oracle_per_tick_throttled_transitions (cfg : UserAlertConfig) (oracle : Bool)
    (now : Int) (tick : TickData) (st? : Option SymbolState) (inact : Bool)
    (hen : cfg.enabled = true) :
    (processTick (some cfg) oracle now tick st? inact).oracleCalls
      = (if cfg.respect_market_hours then 1 else 0)
    ∧ ∀ st st', st? = some st → ¬(now - st.lastMarketStatusCheck > 60000) →
        (processTick (some cfg) oracle now tick st? inact).state = some st' →
        st'.lastMarketStatusCheck = st.lastMarketStatusCheck
        ∧ st'.wasMarketOpen = st.wasMarketOpen := by
  constructor
  · unfold processTick
    cases st? with
    | none => simp [hen]
    | some st =>
      simp only [hen, Bool.not_true, Bool.false_eq_true, if_false]
      repeat' split
      all_goals first
        | rfl
        | apply afterMarketCheck_oracleCalls
  · intro st st' hst hthrottle hres
    subst hst
    unfold processTick at hres
    simp only [hen, Bool.not_true, Bool.false_eq_true, if_false, if_neg hthrottle] at hres
    exact afterMarketCheck_preserves_status _ _ _ _ _ _ _ _ hres

/-- C7, witness for `c7_oracle_per_tick_throttled_transitions` on token
101 with `respect_market_hours = true`. -/
theorem c7_oracle_per_tick_throttled_transitions_witness :
    (processTick (some c7cfg) true 0 c7t1 none false).oracleCalls
      = (if c7cfg.respect_market_hours then 1 else 0) :=
  (c7_oracle_per_tick_throttled_transitions c7cfg true 0 c7t1 none false rfl).1

/-- C8: when `clearAllAlerts` succeeds, the in-memory recent-alerts cache
is emptied (hence holds zero unacknowledged records), the
inactive-instrument marker set is empty, and the sound of every monitored
instrument in `symbolStates` is stopped. -/
theorem c8_acknowledge_all_clears (g : EngineGlobal) :
    (clearAllAlerts g true).alerts = []
    ∧ ((clearAllAlerts g true).alerts.filter fun a => !a.acknowledged) = []
    ∧ (clearAllAlerts g true).inactiveSymbols = []
    ∧ ((clearAllAlerts g true).symbolStates.all fun p => !p.2.soundPlaying) = true := by
  simp [clearAllAlerts]

/-- C9, counterexample: acknowledging the already-acknowledged record
`c9rec` (acknowledged at t=5) again at t=10 changes the stored record:
`acknowledged_at` is overwritten with the new timestamp.  This refutes
"leaving the stored record unchanged". -/
theorem c9_ack_counterexample :
    ackStore [c9rec] "u1" "a1" 10 ≠ [c9rec]
    ∧ (ackStore [c9rec] "u1" "a1" 10).map (fun r => r.acknowledged_at) = [some 10]
    ∧ c9rec.acknowledged = true ∧ c9rec.acknowledged_at = some 5 := by
  norm_num [ackStore, c9rec]

/-- C9, amended: re-acknowledging succeeds and leaves the record
acknowledged, and the operation is idempotent at a fixed timestamp
(applying it twice with the same `now`, on the store or on the cache,
equals applying it once); but `acknowledged_at` is set to the invocation
time, so a repeat at a different time does not leave the record
unchanged. -/
theorem c9_ack_idempotent_up_to_timestamp (db cache : List StoredAlert)
    (uid aid : String) (now : Int) :
    ackStore (ackStore db uid aid now) uid aid now = ackStore db uid aid now
    ∧ ackCache (ackCache cache aid now) aid now = ackCache cache aid now
    ∧ ((ackStore db uid aid now).all
        fun r => !(r.id == aid && r.user_id == uid) || r.acknowledged) = true := by
  refine ⟨?_, ?_, ?_⟩
  · unfold ackStore
    rw [List.map_map]
    apply List.map_congr_left
    intro r _
    by_cases h : (r.id = aid ∧ r.user_id = uid) <;> simp [h]
  · unfold ackCache
    rw [List.map_map]
    apply List.map_congr_left
    intro a _
    by_cases h : a.id = aid <;> simp [h]
  · unfold ackStore
    rw [List.all_map]
    rw [List.all_eq_true]
    intro r _
    by_cases h : (r.id = aid ∧ r.user_id = uid)
    · simp [h]
    · simp [h]
      exact Or.inl (not_and_or.mp h)

/-- C10: in every reachable engine state whose timer is pending, the
baseline equals the price of the tick captured at arming; hence every
record a timeout fire emits has `current_price = baseline_price`. -/
theorem c10_fire_record_current_eq_baseline (s : Option SymbolState) (hs : Reachable s)
    (st : SymbolState) (tm : PendingTimer) (h1 : s = some st) (h2 : st.timer = some tm)
    (oracle : Bool) (ms : String) (persistOk audioCtx notifGranted : Bool)
    (alerts : List AlertRecord) (inact : Bool) (r : AlertRecord)
    (hr : (fireTimer tm st oracle ms persistOk audioCtx notifGranted alerts inact).record
        = some r) :
    r.current_price = r.baseline_price := by
  have hb : st.baselinePrice = tm.tick.last_price := reachable_timerInv hs st tm h1 h2
  unfold fireTimer triggerAlert at hr
  by_cases hsa : (if tm.cfg.respect_market_hours then oracle else true) = true
  · simp only [hsa, if_true] at hr
    cases persistOk <;> simp at hr <;> subst hr <;> simp [buildAlertRecord] <;> exact hb.symm
  · simp only [Bool.not_eq_true] at hsa
    simp [hsa] at hr

/-- C10, witness for `c10_fire_record_current_eq_baseline` at a state
reached by arming token 5 at price 50 and firing its timeout. -/
theorem c10_fire_record_current_eq_baseline_witness :
    (buildAlertRecord c10tick c10cfg c10st "regular").current_price
      = (buildAlertRecord c10tick c10cfg c10st "regular").baseline_price :=
  c10_fire_record_current_eq_baseline _
    (Reachable.tick (some c10cfg) true 0 c10tick false Reachable.init) c10st c10tm rfl rfl
    true "regular" true true true [] false _ rfl
